import Mathlib

/-!
Shallow embedding of the persistence layer (`src/src/database.service.ts`)
and of the audio-capture session (`src/src/app.component.ts`) of the
kids-soundboard application, together with theorems settling the spec
claims about them.

Modelling conventions:
* a browser `Blob` is an opaque byte list plus a MIME tag;
* the IndexedDB object stores become association lists `List (Nat × _)`
  paired with the auto-increment key generators (`keyPath: id,
  autoIncrement: true` starts at key 1 and only ever counts up);
* the callback-style IndexedDB requests become pure functions on the
  database value; an underlying I/O failure of a request is modelled as
  an explicit boolean input;
* the `MediaRecorder` capture session becomes a state machine driven by
  an event list (permission result, data-available chunks, stop).
-/

/-- A browser `Blob`: opaque binary payload plus MIME type tag. -/
structure Blob where
  data : List Nat
  mime : String
deriving DecidableEq, Repr

/-- `new Blob(chunks, \x7b type: mime \x7d)`: concatenation of the chunk
bytes, in array order, tagged with the given MIME type. -/
def Blob.concatList (chunks : List Blob) (mime : String) : Blob :=
  ⟨(chunks.map Blob.data).flatten, mime⟩

/-- The `Category` record of `database.service.ts` (the `id` field lives
in the association-list key, as IndexedDB keeps it under `keyPath: id`). -/
structure Category where
  name : String
  picture : Blob
deriving DecidableEq, Repr

/-- The `Item` record of `database.service.ts`. -/
structure Item where
  categoryId : Nat
  name : String
  picture : Blob
  sound : Blob
deriving DecidableEq, Repr

/-- The logical state of `KidsSoundboardDB`: the two object stores with
their auto-increment key generators. -/
structure DB where
  categories : List (Nat × Category)
  items : List (Nat × Item)
  catKey : Nat
  itemKey : Nat
deriving DecidableEq, Repr

/-- The freshly created database: empty stores, IndexedDB key generators
start at 1. -/
def initDB : DB := ⟨[], [], 1, 1⟩

/-- `DatabaseService.getCategories`: `store.getAll()` on `categories`. -/
def DB.getCategories (db : DB) : List (Nat × Category) :=
  db.categories

/-- `DatabaseService.addCategory`: `store.add(category)` on the
auto-increment store assigns the current key of the generator, bumps it, and
resolves with the assigned key. -/
def DB.addCategory (db : DB) (c : Category) : DB × Nat :=
  ({ db with categories := db.categories ++ [(db.catKey, c)],
             catKey := db.catKey + 1 }, db.catKey)

/-- `DatabaseService.getItems(categoryId)`: `index.getAll(categoryId)` on
the non-unique secondary index over the `categoryId` field. -/
def DB.getItems (db : DB) (categoryId : Nat) : List (Nat × Item) :=
  db.items.filter (fun p => p.2.categoryId == categoryId)

/-- `DatabaseService.addItem`: `store.add(item)` on the auto-increment
`items` store. -/
def DB.addItem (db : DB) (i : Item) : DB × Nat :=
  ({ db with items := db.items ++ [(db.itemKey, i)],
             itemKey := db.itemKey + 1 }, db.itemKey)

/-- Modelled from the spec: `DatabaseService.deleteCategory(id)` is
called by `AppComponent.confirmDeletion` but its definition is missing
from the sources under src; spec section 4.1 says it removes the
Category record with that `id`, is a no-op (not an error) if the id does
not exist, and does not touch the `items` store (no cascade). -/
def DB.deleteCategory (db : DB) (id : Nat) : DB :=
  { db with categories := db.categories.filter (fun p => p.1 != id) }

/-- Modelled from the spec: `DatabaseService.deleteItem(id)` is called by
`AppComponent.confirmDeletion` but its definition is missing from the
sources under src; spec section 4.1 says it removes the Item record with
that `id`, no-op if absent. -/
def DB.deleteItem (db : DB) (id : Nat) : DB :=
  { db with items := db.items.filter (fun p => p.1 != id) }

/-- Outcome of a create operation as seen by the caller.  The error
taxonomy of the spec names `ValidationError` and `StorageError`; the source
additionally has the silent-skip path of the UI guard
(`if (name && this.imageFile())` in `AppComponent.addCategory`), which
persists nothing and signals nothing. -/
inductive AddOutcome
  | ok (id : Nat)
  | silentNoOp
  | storageError
  | validationError
deriving DecidableEq, Repr

/-- `AppComponent.addCategory` composed with
`DatabaseService.addCategory`, as the source wires them: the guard
`if (name && this.imageFile())` silently does nothing when the name is
empty or no image file was chosen; otherwise the record is persisted and
the assigned id returned, with an underlying request failure (modelled
by `ioFail`) propagated as the error of the request. -/
def uiAddCategory (name : String) (imageFile : Option Blob) (ioFail : Bool)
    (db : DB) : DB × AddOutcome :=
  match imageFile with
  | none => (db, AddOutcome.silentNoOp)
  | some pic =>
    if name = "" then (db, AddOutcome.silentNoOp)
    else if ioFail then (db, AddOutcome.storageError)
    else
      let r := db.addCategory ⟨name, pic⟩
      (r.1, AddOutcome.ok r.2)

/-- `AppComponent.addItem` composed with `DatabaseService.addItem`: the
guard `if (name && this.imageFile() && this.recordedSoundBlob() &&
category)` silently does nothing when any piece is missing. -/
def uiAddItem (name : String) (imageFile soundBlob : Option Blob)
    (selectedCategory : Option Nat) (ioFail : Bool) (db : DB) :
    DB × AddOutcome :=
  match imageFile, soundBlob, selectedCategory with
  | some pic, some snd, some catId =>
    if name = "" then (db, AddOutcome.silentNoOp)
    else if ioFail then (db, AddOutcome.storageError)
    else
      let r := db.addItem ⟨catId, name, pic, snd⟩
      (r.1, AddOutcome.ok r.2)
  | _, _, _ => (db, AddOutcome.silentNoOp)

/-- A store operation, for reasoning about operation traces. -/
inductive Op
  | addCat (c : Category)
  | addIt (i : Item)
  | delCat (id : Nat)
  | delIt (id : Nat)
deriving DecidableEq, Repr

/-- Effect of one operation on the database state. -/
def DB.step (db : DB) : Op → DB
  | Op.addCat c => (db.addCategory c).1
  | Op.addIt i => (db.addItem i).1
  | Op.delCat id => db.deleteCategory id
  | Op.delIt id => db.deleteItem id

/-- Run a trace of operations. -/
def DB.run (db : DB) (ops : List Op) : DB :=
  ops.foldl DB.step db

/-- All category ids handed out by `addCategory` along a trace, including
ids of records that are later deleted. -/
def DB.assignedCatIds (db : DB) : List Op → List Nat
  | [] => []
  | op :: rest =>
    (match op with
     | Op.addCat c => [(db.addCategory c).2]
     | _ => []) ++ (db.step op).assignedCatIds rest

/-- Logical schema of the embedded database: the object-store names plus
whether the `categoryId` secondary index on `items` exists. -/
structure Schema where
  storeNames : List String
  hasCategoryIdIndex : Bool
deriving DecidableEq, Repr

/-- A database before any open: no stores, version 0. -/
def emptySchema : Schema := ⟨[], false⟩

/-- The `onupgradeneeded` handler of `DatabaseService`: create the
`categories` store if absent, then the `items` store (with its
`categoryId` index) if absent. -/
def upgradeSchema (s : Schema) : Schema :=
  let s1 := if "categories" ∈ s.storeNames then s
            else { s with storeNames := s.storeNames ++ ["categories"] }
  if "items" ∈ s1.storeNames then s1
  else { s1 with storeNames := s1.storeNames ++ ["items"],
                 hasCategoryIdIndex := true }

/-- The host-managed database file: schema plus stored version. -/
structure HostDB where
  schema : Schema
  version : Nat
deriving DecidableEq, Repr

/-- `indexedDB.open(DB_NAME, 1)`: runs the upgrade handler exactly when
the stored version is below the requested version 1, then records
version 1; otherwise it hands back the database unchanged. -/
def openDB (h : HostDB) : HostDB :=
  if h.version < 1 then ⟨upgradeSchema h.schema, 1⟩ else h

/-- The `DatabaseService` instance: `dbPromise` is assigned once in the
constructor and every `getStore` call awaits that same promise. -/
structure DatabaseService where
  dbPromise : HostDB
deriving DecidableEq, Repr

/-- `DatabaseService.getStore(storeName, mode)`: opens a transaction on
the one shared connection and returns the named store handle. -/
def DatabaseService.getStore (svc : DatabaseService) (storeName : String) :
    HostDB × String :=
  (svc.dbPromise, storeName)

/-- The capture-session state of `AppComponent`: the recording flag, the
finalized blob and its playable reference, whether a `MediaRecorder` has
ever been constructed (`mediaRecorder !== null`), and the chunk buffer
`audioChunks`. -/
structure Session where
  isRecording : Bool
  recordedSoundBlob : Option Blob
  recordedSoundUrl : Option Blob
  hasRecorder : Bool
  audioChunks : List Blob
deriving DecidableEq, Repr

/-- The initial capture state of the component: not recording, no blob, no
url, `mediaRecorder = null`, empty chunk buffer. -/
def initSession : Session := ⟨false, none, none, false, []⟩

/-- What `AppComponent.startRecording` reports: normal entry into
recording; the caught-denial path, which logs and shows a user alert and
returns normally; or the typed `PermissionDenied` failure of the spec, which
the source never produces. -/
inductive StartOutcome
  | started
  | alerted (msg : String)
  | typedFailure
deriving DecidableEq, Repr

/-- The alert text shown by the source on microphone denial. -/
def denialAlertMsg : String :=
  "Microphone access was denied. Please allow microphone access in your browser settings to record audio."

/-- `AppComponent.startRecording` with the `getUserMedia` permission
result made explicit.  On grant: set `isRecording`, clear the previous
blob, url and chunk buffer, construct the recorder, start it.  On
denial the `await` throws before any mutation, and the catch block logs,
alerts and sets `isRecording` to false — nothing is signalled to the
caller as a failure. -/
def startRecording (s : Session) (granted : Bool) : Session × StartOutcome :=
  if granted then
    (⟨true, none, none, true, []⟩, StartOutcome.started)
  else
    ({ s with isRecording := false }, StartOutcome.alerted denialAlertMsg)

/-- The `mediaRecorder.ondataavailable` handler: push the chunk onto
`audioChunks` in arrival order. -/
def onData (s : Session) (b : Blob) : Session :=
  { s with audioChunks := s.audioChunks ++ [b] }

/-- `AppComponent.stopRecording` together with the `onstop` handler it
triggers: guarded by `this.mediaRecorder && this.isRecording()`; when it
fires, the buffered chunks are concatenated into one `audio/wav` blob,
exposed as `recordedSoundBlob` with a playable object-url reference, and
the recording flag is cleared (the microphone tracks are stopped). -/
def stopRecording (s : Session) : Session :=
  if s.hasRecorder && s.isRecording then
    let audioBlob := Blob.concatList s.audioChunks "audio/wav"
    { s with isRecording := false,
             recordedSoundBlob := some audioBlob,
             recordedSoundUrl := some audioBlob }
  else s

/-- Events driving the capture session. -/
inductive CEvent
  | start (granted : Bool)
  | data (b : Blob)
  | stop
deriving DecidableEq, Repr

/-- One capture event applied to the session state. -/
def Session.cstep (s : Session) : CEvent → Session
  | CEvent.start g => (startRecording s g).1
  | CEvent.data b => onData s b
  | CEvent.stop => stopRecording s

/-- Run a list of capture events. -/
def Session.crun (s : Session) (es : List CEvent) : Session :=
  es.foldl Session.cstep s

/-- A sample picture blob for concrete witnesses. -/
def pngBlob1 : Blob := ⟨[137, 80], "image/png"⟩

/-- A sample sound blob for concrete witnesses. -/
def wavBlob1 : Blob := ⟨[82, 73], "audio/wav"⟩

/-- A concrete store state: one category (id 1) and one item (id 1)
belonging to it, key generators at 2. -/
def sampleDB : DB :=
  ⟨[(1, ⟨"Animals", pngBlob1⟩)], [(1, ⟨1, "Dog", pngBlob1, wavBlob1⟩)], 2, 2⟩

/-- C1: `deleteCategory(id)` removes exactly the category record keyed
`id` (every other record survives) and is a no-op when no record has
that id; `deleteItem(id)` behaves the same way on the `items` store. -/
theorem deleteOps_remove_or_noop (db : DB) (id : Nat) :
    (∀ p ∈ (db.deleteCategory id).categories, p.1 ≠ id) ∧
    (∀ p ∈ db.categories, p.1 ≠ id → p ∈ (db.deleteCategory id).categories) ∧
    ((∀ p ∈ db.categories, p.1 ≠ id) → db.deleteCategory id = db) ∧
    (∀ p ∈ (db.deleteItem id).items, p.1 ≠ id) ∧
    (∀ p ∈ db.items, p.1 ≠ id → p ∈ (db.deleteItem id).items) ∧
    ((∀ p ∈ db.items, p.1 ≠ id) → db.deleteItem id = db) := by
  refine ⟨?_, ?_, ?_, ?_, ?_, ?_⟩
  · intro p hp
    have := List.of_mem_filter hp
    simpa using this
  · intro p hp hne
    exact List.mem_filter.mpr ⟨hp, by simpa using hne⟩
  · intro h
    show { db with categories := _ } = db
    have : db.categories.filter (fun p => p.1 != id) = db.categories :=
      List.filter_eq_self.mpr (fun p hp => by simpa using h p hp)
    rw [this]
  · intro p hp
    have := List.of_mem_filter hp
    simpa using this
  · intro p hp hne
    exact List.mem_filter.mpr ⟨hp, by simpa using hne⟩
  · intro h
    show { db with items := _ } = db
    have : db.items.filter (fun p => p.1 != id) = db.items :=
      List.filter_eq_self.mpr (fun p hp => by simpa using h p hp)
    rw [this]

/-- Witness for C1 at a concrete state: deleting category 1 removes it,
and deleting absent item 99 changes nothing. -/
theorem deleteOps_remove_or_noop_witness :
    ((1, (⟨"Animals", pngBlob1⟩ : Category)) ∉
        (sampleDB.deleteCategory 1).categories) ∧
    sampleDB.deleteItem 99 = sampleDB := by
  constructor
  · intro hmem
    exact (deleteOps_remove_or_noop sampleDB 1).1 _ hmem rfl
  · exact (deleteOps_remove_or_noop sampleDB 99).2.2.2.2.2 (by decide)

/-- C3: `getItems(categoryId)` returns exactly the stored item records
whose `categoryId` field equals the argument. -/
theorem getItems_filters_by_categoryId (db : DB) (cid : Nat) (p : Nat × Item) :
    p ∈ db.getItems cid ↔ p ∈ db.items ∧ p.2.categoryId = cid := by
  simp [DB.getItems, List.mem_filter]

/-- Witness for C3 at a concrete state: the stored Dog item is returned
for its own category and for no other. -/
theorem getItems_filters_by_categoryId_witness :
    (1, (⟨1, "Dog", pngBlob1, wavBlob1⟩ : Item)) ∈ sampleDB.getItems 1 ∧
    (1, (⟨1, "Dog", pngBlob1, wavBlob1⟩ : Item)) ∉ sampleDB.getItems 2 := by
  constructor
  · exact (getItems_filters_by_categoryId sampleDB 1 _).mpr ⟨by decide, rfl⟩
  · intro hmem
    have := ((getItems_filters_by_categoryId sampleDB 2 _).mp hmem).2
    simp at this

/-- C8: `deleteCategory` never touches the `items` store, so every item
of the deleted category is still returned by `getItems` afterwards. -/
theorem deleteCategory_preserves_items (db : DB) (id cid : Nat) :
    (db.deleteCategory id).items = db.items ∧
    (db.deleteCategory id).getItems cid = db.getItems cid := by
  exact ⟨rfl, rfl⟩

/-- C6: `stopRecording` while not recording is the identity on the
session state: no blob is produced and nothing changes. -/
theorem stop_not_recording_noop (s : Session) (h : s.isRecording = false) :
    s.cstep CEvent.stop = s := by
  simp [Session.cstep, stopRecording, h]

/-- Witness for C6: `stop` on the initial session (before any `start`)
leaves it untouched, with no captured blob. -/
theorem stop_not_recording_noop_witness :
    initSession.cstep CEvent.stop = initSession ∧
    (initSession.cstep CEvent.stop).recordedSoundBlob = none := by
  have h := stop_not_recording_noop initSession rfl
  exact ⟨h, by rw [h]; rfl⟩

/-- C7 counterexample: when microphone access is denied, the source
(catch block of `startRecording`) reports through a user-facing alert
and returns normally — it does not signal the typed `PermissionDenied`
failure the claim requires. -/
theorem start_denied_counterexample :
    startRecording initSession false
      = (initSession, StartOutcome.alerted denialAlertMsg) ∧
    StartOutcome.alerted denialAlertMsg ≠ StartOutcome.typedFailure := by
  refine ⟨rfl, ?_⟩
  intro h
  exact StartOutcome.noConfusion h

/-- C7 amended: on denial the session returns to Idle (`isRecording`
false) with the error swallowed at the boundary — reported via the alert
message, never rethrown and never surfaced as a typed failure — and a
retry of `start` from the resulting state succeeds. -/
theorem start_denied_amended (s : Session) :
    (startRecording s false).1.isRecording = false ∧
    (startRecording s false).2 = StartOutcome.alerted denialAlertMsg ∧
    (startRecording (startRecording s false).1 true).2
      = StartOutcome.started ∧
    (startRecording (startRecording s false).1 true).1.isRecording = true := by
  exact ⟨rfl, rfl, rfl, rfl⟩

/-- C2 counterexample: a create call with a required field missing is a
silent no-op of the UI guard — the store is unchanged and the outcome is
neither a persisted record nor a `ValidationError`. -/
theorem addOps_validation_counterexample :
    uiAddCategory "Dog" none false sampleDB
      = (sampleDB, AddOutcome.silentNoOp) ∧
    uiAddItem "Dog" (some pngBlob1) none (some 1) false sampleDB
      = (sampleDB, AddOutcome.silentNoOp) ∧
    AddOutcome.silentNoOp ≠ AddOutcome.validationError := by
  refine ⟨rfl, rfl, ?_⟩
  intro h
  exact AddOutcome.noConfusion h

/-- C2 amended: when a required field is missing (`name` empty, or no
picture / sound / selected category), the create operations persist
nothing and complete silently (no `ValidationError`); when all fields
are present they persist the record and return the assigned id, and an
underlying request failure surfaces as the storage error. -/
theorem addOps_validation_amended (name : String) (pic snd : Option Blob)
    (catId : Option Nat) (ioFail : Bool) (db : DB) :
    ((name = "" ∨ pic = none) →
        uiAddCategory name pic ioFail db = (db, AddOutcome.silentNoOp)) ∧
    (∀ p, pic = some p → name ≠ "" → ioFail = true →
        uiAddCategory name pic ioFail db = (db, AddOutcome.storageError)) ∧
    (∀ p, pic = some p → name ≠ "" → ioFail = false →
        uiAddCategory name pic ioFail db
          = ((db.addCategory ⟨name, p⟩).1, AddOutcome.ok db.catKey) ∧
        (db.catKey, Category.mk name p)
          ∈ (uiAddCategory name pic ioFail db).1.getCategories) ∧
    ((name = "" ∨ pic = none ∨ snd = none ∨ catId = none) →
        uiAddItem name pic snd catId ioFail db
          = (db, AddOutcome.silentNoOp)) ∧
    (∀ p q c, pic = some p → snd = some q → catId = some c → name ≠ "" →
        ioFail = true →
        uiAddItem name pic snd catId ioFail db
          = (db, AddOutcome.storageError)) ∧
    (∀ p q c, pic = some p → snd = some q → catId = some c → name ≠ "" →
        ioFail = false →
        uiAddItem name pic snd catId ioFail db
          = ((db.addItem ⟨c, name, p, q⟩).1, AddOutcome.ok db.itemKey)) := by
  refine ⟨?_, ?_, ?_, ?_, ?_, ?_⟩
  · intro h
    cases pic with
    | none => rfl
    | some p =>
      rcases h with h | h
      · simp [uiAddCategory, h]
      · exact absurd h (by simp)
  · intro p hp hn hio
    subst hp; subst hio
    simp [uiAddCategory, hn]
  · intro p hp hn hio
    subst hp; subst hio
    constructor
    · simp [uiAddCategory, hn, DB.addCategory]
    · simp [uiAddCategory, hn, DB.addCategory, DB.getCategories]
  · intro h
    cases pic with
    | none => rfl
    | some p =>
      cases snd with
      | none => rfl
      | some q =>
        cases catId with
        | none => rfl
        | some c =>
          rcases h with h | h | h | h
          · simp [uiAddItem, h]
          · exact absurd h (by simp)
          · exact absurd h (by simp)
          · exact absurd h (by simp)
  · intro p q c hp hq hc hn hio
    subst hp; subst hq; subst hc; subst hio
    simp [uiAddItem, hn]
  · intro p q c hp hq hc hn hio
    subst hp; subst hq; subst hc; subst hio
    simp [uiAddItem, hn, DB.addItem]

/-- Witness for the amended C2 at concrete inputs: empty name is
silently skipped, and an underlying failure surfaces as the storage
error. -/
theorem addOps_validation_amended_witness :
    uiAddCategory "" (some pngBlob1) false sampleDB
      = (sampleDB, AddOutcome.silentNoOp) ∧
    uiAddCategory "Cat" (some pngBlob1) true sampleDB
      = (sampleDB, AddOutcome.storageError) := by
  have h1 := addOps_validation_amended "" (some pngBlob1) (some wavBlob1)
      (some 1) false sampleDB
  have h2 := addOps_validation_amended "Cat" (some pngBlob1) (some wavBlob1)
      (some 1) true sampleDB
  exact ⟨h1.1 (Or.inl rfl), h2.2.1 pngBlob1 rfl (by decide) rfl⟩

/-- Running a concatenation of event lists is running them in sequence. -/
theorem crun_append (s : Session) (l1 l2 : List CEvent) :
    s.crun (l1 ++ l2) = (s.crun l1).crun l2 := by
  simp [Session.crun, List.foldl_append]

/-- Data-available events only append their chunks, in arrival order, to
the buffer; every other field of the session is untouched. -/
theorem crun_data (s : Session) (cs : List Blob) :
    s.crun (cs.map CEvent.data)
      = { s with audioChunks := s.audioChunks ++ cs } := by
  induction cs generalizing s with
  | nil => simp [Session.crun]
  | cons b cs ih =>
    show (onData s b).crun (cs.map CEvent.data) = _
    rw [ih]
    simp [onData]

/-- C5: a full capture run — `start` granted, the chunks arriving in
order, then `stop` — finalizes exactly one result blob: the
concatenation of precisely those chunks in arrival order, tagged
`audio/wav`. -/
theorem captureRun_concatenates_chunks (cs : List Blob) :
    (initSession.crun
        ([CEvent.start true] ++ cs.map CEvent.data ++ [CEvent.stop])).recordedSoundBlob
      = some (Blob.concatList cs "audio/wav") ∧
    (Blob.concatList cs "audio/wav").mime = "audio/wav" ∧
    (Blob.concatList cs "audio/wav").data = (cs.map Blob.data).flatten := by
  refine ⟨?_, rfl, rfl⟩
  rw [crun_append, crun_append]
  have h1 : initSession.crun [CEvent.start true]
      = ⟨true, none, none, true, []⟩ := rfl
  rw [h1, crun_data]
  simp [Session.crun, Session.cstep, stopRecording]

/-- C10: a granted `start` clears the chunk buffer and resets the
captured blob and its playable reference, so the blob finalized by the
following `stop` is the concatenation of only the chunks of the current
session, whatever state (chunks, blob, url) was left behind before. -/
theorem start_resets_session (s : Session) (cs : List Blob) :
    (startRecording s true).1.audioChunks = [] ∧
    (startRecording s true).1.recordedSoundBlob = none ∧
    (startRecording s true).1.recordedSoundUrl = none ∧
    ((startRecording s true).1.crun
        (cs.map CEvent.data ++ [CEvent.stop])).recordedSoundBlob
      = some (Blob.concatList cs "audio/wav") := by
  refine ⟨rfl, rfl, rfl, ?_⟩
  rw [crun_append]
  have h1 : (startRecording s true).1 = ⟨true, none, none, true, []⟩ := rfl
  rw [h1, crun_data]
  simp [Session.crun, Session.cstep, stopRecording]

/-- One step never decreases the category key generator. -/
theorem step_catKey_le (db : DB) (op : Op) : db.catKey ≤ (db.step op).catKey := by
  cases op <;> simp [DB.step, DB.addCategory, DB.addItem, DB.deleteCategory,
    DB.deleteItem]

/-- A whole trace never decreases the category key generator. -/
theorem run_catKey_le (ops : List Op) (db : DB) :
    db.catKey ≤ (db.run ops).catKey := by
  induction ops generalizing db with
  | nil => exact le_refl _
  | cons op rest ih =>
    exact le_trans (step_catKey_le db op) (ih (db.step op))

/-- Every id handed out by `addCategory` along a trace stays strictly
below the final value of the key generator. -/
theorem assignedCatIds_lt (ops : List Op) (db : DB) (id : Nat)
    (h : id ∈ db.assignedCatIds ops) : id < (db.run ops).catKey := by
  induction ops generalizing db with
  | nil => simp [DB.assignedCatIds] at h
  | cons op rest ih =>
    cases op with
    | addCat c =>
      simp only [DB.assignedCatIds, List.mem_append, List.mem_singleton] at h
      rcases h with h1 | h2
      · have hid : id = db.catKey := h1
        have hstep : (db.step (Op.addCat c)).catKey = db.catKey + 1 := rfl
        have hrun := run_catKey_le rest (db.step (Op.addCat c))
        show id < ((db.step (Op.addCat c)).run rest).catKey
        omega
      · exact ih (db.step (Op.addCat c)) h2
    | addIt i =>
      simp only [DB.assignedCatIds, List.nil_append] at h
      exact ih (db.step (Op.addIt i)) h
    | delCat i =>
      simp only [DB.assignedCatIds, List.nil_append] at h
      exact ih (db.step (Op.delCat i)) h
    | delIt i =>
      simp only [DB.assignedCatIds, List.nil_append] at h
      exact ih (db.step (Op.delIt i)) h

/-- Invariant: every stored category id is strictly below the key
generator. -/
def DB.catWF (db : DB) : Prop :=
  ∀ p ∈ db.categories, p.1 < db.catKey

/-- The invariant holds in the fresh database. -/
theorem initDB_catWF : initDB.catWF := by
  intro p hp
  simp [initDB] at hp

/-- Every operation preserves the category-id invariant. -/
theorem step_catWF (db : DB) (op : Op) (h : db.catWF) : (db.step op).catWF := by
  cases op with
  | addCat c =>
    intro p hp
    simp [DB.step, DB.addCategory] at hp ⊢
    rcases hp with hp | hp
    · exact Nat.lt_succ_of_lt (h p hp)
    · rw [hp]
      exact Nat.lt_succ_self _
  | addIt i => exact fun p hp => h p hp
  | delCat i =>
    intro p hp
    exact h p (List.mem_of_mem_filter hp)
  | delIt i => exact fun p hp => h p hp

/-- The invariant holds after any trace from any state satisfying it. -/
theorem run_catWF (ops : List Op) (db : DB) (h : db.catWF) :
    (db.run ops).catWF := by
  induction ops generalizing db with
  | nil => exact h
  | cons op rest ih => exact ih (db.step op) (step_catWF db op h)

/-- C4: after any operation trace from the fresh store, adding a valid
category persists a record carrying exactly the returned id, that id was
never handed out before on the trace (even to records deleted since),
and every already-stored record keeps its id and survives the add. -/
theorem addCategory_fresh_id (ops : List Op) (name : String) (pic : Blob)
    (h : name ≠ "") :
    (uiAddCategory name (some pic) false (initDB.run ops)).2
      = AddOutcome.ok (initDB.run ops).catKey ∧
    ((initDB.run ops).catKey, Category.mk name pic)
      ∈ (uiAddCategory name (some pic) false (initDB.run ops)).1.getCategories ∧
    (initDB.run ops).catKey ∉ initDB.assignedCatIds ops ∧
    (∀ p ∈ (initDB.run ops).categories,
        p.1 ≠ (initDB.run ops).catKey ∧
        p ∈ (uiAddCategory name (some pic) false (initDB.run ops)).1.categories) := by
  have hu : uiAddCategory name (some pic) false (initDB.run ops)
      = (((initDB.run ops).addCategory ⟨name, pic⟩).1,
         AddOutcome.ok ((initDB.run ops).addCategory ⟨name, pic⟩).2) := by
    simp [uiAddCategory, h]
  refine ⟨?_, ?_, ?_, ?_⟩
  · rw [hu]
    rfl
  · rw [hu]
    simp [DB.addCategory, DB.getCategories]
  · intro hmem
    have := assignedCatIds_lt ops initDB _ hmem
    omega
  · intro p hp
    have hwf := run_catWF ops initDB initDB_catWF
    constructor
    · exact Nat.ne_of_lt (hwf p hp)
    · rw [hu]
      simp [DB.addCategory]
      exact Or.inl hp

/-- Witness for C4: after creating the Animals category (id 1) and
deleting it again, a valid add returns the fresh id 2, which was never
assigned before on the trace. -/
theorem addCategory_fresh_id_witness :
    (uiAddCategory "Vehicles" (some pngBlob1) false
        (initDB.run [Op.addCat ⟨"Animals", pngBlob1⟩, Op.delCat 1])).2
      = AddOutcome.ok 2 ∧
    2 ∉ initDB.assignedCatIds [Op.addCat ⟨"Animals", pngBlob1⟩, Op.delCat 1] := by
  have h := addCategory_fresh_id [Op.addCat ⟨"Animals", pngBlob1⟩, Op.delCat 1]
      "Vehicles" pngBlob1 (by decide)
  refine ⟨h.1.trans (by decide), ?_⟩
  have h3 := h.2.2.1
  have : (initDB.run [Op.addCat ⟨"Animals", pngBlob1⟩, Op.delCat 1]).catKey
      = 2 := by decide
  rw [this] at h3
  exact h3

/-- After one run of the upgrade handler both store names exist. -/
theorem upgradeSchema_mem (s : Schema) :
    "categories" ∈ (upgradeSchema s).storeNames ∧
    "items" ∈ (upgradeSchema s).storeNames := by
  unfold upgradeSchema
  by_cases h1 : "categories" ∈ s.storeNames <;>
    by_cases h2 : "items" ∈ s.storeNames <;>
      simp [h1, h2]

/-- The upgrade handler is idempotent: its membership guards make a
second run change nothing. -/
theorem upgradeSchema_idem (s : Schema) :
    upgradeSchema (upgradeSchema s) = upgradeSchema s := by
  have hmem := upgradeSchema_mem s
  conv_lhs => rw [upgradeSchema]
  simp [hmem.1, hmem.2]

/-- C9: `open()` is idempotent — a second open of the same database
leaves the logical state unchanged, the upgrade handler itself is
idempotent, a first-ever open creates exactly the two collections (each
once, no duplicates) with the `categoryId` index, and every `getStore`
call on the service hands back the single shared connection assigned
once in the constructor. -/
theorem open_idempotent (h : HostDB) (svc : DatabaseService)
    (n1 n2 : String) :
    openDB (openDB h) = openDB h ∧
    upgradeSchema (upgradeSchema h.schema) = upgradeSchema h.schema ∧
    openDB ⟨emptySchema, 0⟩ = ⟨⟨["categories", "items"], true⟩, 1⟩ ∧
    (openDB ⟨emptySchema, 0⟩).schema.storeNames.Nodup ∧
    (svc.getStore n1).1 = svc.dbPromise ∧
    (svc.getStore n1).1 = (svc.getStore n2).1 := by
  refine ⟨?_, upgradeSchema_idem h.schema, by decide, by decide, rfl, rfl⟩
  by_cases hv : h.version < 1
  · simp [openDB, hv]
  · simp [openDB, hv]
